import Mathlib

/-!
Verification of the evolutionary itemization optimizer and the website data
layer of the `ignacio-ireta.github.io` repository.

The repository snapshot contains the website JavaScript (`docs/js/*.js`, the
script embedded in `docs/README.md`) but not the Python optimizer files
(`lol_genetic_algorithm.py`, `lol_differential_evolution.py`,
`compare_algorithms.py` are referenced by `datascience_project/README.md`
only).  Definitions taken from JavaScript present in the snapshot carry a
comment naming their source; definitions standing in for the missing Python
files are modelled from the specification and say so in their doc comment.
-/

namespace LolOpt

/-! ## Comparator display code, from the script embedded in `docs/README.md`
(function `populateAlgorithmData`). -/

/-- Embeds `const shared = gaItems.filter(item => deItems.includes(item))`
from `populateAlgorithmData` in the script embedded in `docs/README.md`:
the list of common items reported for the GA and DE optimal builds. -/
def sharedItems (gaItems deItems : List ℕ) : List ℕ :=
  gaItems.filter (fun item => deItems.contains item)

/-- Embeds `commonItemsCount.textContent = shared.length` from
`populateAlgorithmData`: the reported number of common items. -/
def commonItemsCount (gaItems deItems : List ℕ) : ℕ :=
  (sharedItems gaItems deItems).length

/-- Embeds `totalItemsCount.textContent = Math.max(gaItems.length, deItems.length)`
from `populateAlgorithmData`. -/
def totalItemsCount (gaItems deItems : List ℕ) : ℕ :=
  max gaItems.length deItems.length

/-- Modelled from the spec: the comparison record's `overlap_ratio`
(`compare_algorithms.py` is not in the repository snapshot).  The spec's
scenario fixes the denominator at the 7 build slots, the convention also
matched by the fallback record `ALGORITHM_DATA` in `docs/README.md`
(`overlap_ratio = 1/7` with one common item). -/
def overlapRatio (gaItems deItems : List ℕ) : ℚ :=
  (commonItemsCount gaItems deItems : ℚ) / 7

end LolOpt

namespace LolOpt

/-- C1: the claim states `common_items` is the deduplicated set intersection
of the two builds, each shared id occurring exactly once, size = number of
distinct shared ids.  The code keeps one entry per GA slot whose item also
occurs in the DE build, so a duplicated shared id is reported twice: on
GA build `[1,1,3,4,5,6,7]` and DE build `[1,2,8,9,10,11,12]` the reported
list is `[1,1]` (id 1 twice) and the reported size is 2, not the 1 distinct
shared id. -/
theorem comparator_common_items_not_set_intersection :
    sharedItems [1, 1, 3, 4, 5, 6, 7] [1, 2, 8, 9, 10, 11, 12] = [1, 1] ∧
    (sharedItems [1, 1, 3, 4, 5, 6, 7] [1, 2, 8, 9, 10, 11, 12]).count 1 = 2 ∧
    commonItemsCount [1, 1, 3, 4, 5, 6, 7] [1, 2, 8, 9, 10, 11, 12] ≠
      (([1, 1, 3, 4, 5, 6, 7] : List ℕ).toFinset ∩
        ([1, 2, 8, 9, 10, 11, 12] : List ℕ).toFinset).card := by
  refine ⟨rfl, rfl, ?_⟩
  decide

/-- C1 (amended): `common_items` agrees with the set intersection only as a
set: its underlying finset is the intersection of the two builds' finsets,
but an id occupying several GA slots is reported once per such slot
(`count x = ga.count x` when `x` is in the DE build, else `0`), and the
reported size equals the number of distinct shared ids exactly when the
list of shared GA entries has no duplicates — in particular whenever the
GA build itself is duplicate-free. -/
theorem comparator_common_items_characterization (gaItems deItems : List ℕ) :
    (sharedItems gaItems deItems).toFinset = gaItems.toFinset ∩ deItems.toFinset ∧
    (∀ x : ℕ, (sharedItems gaItems deItems).count x =
      if x ∈ deItems then gaItems.count x else 0) ∧
    (commonItemsCount gaItems deItems =
        (gaItems.toFinset ∩ deItems.toFinset).card ↔
      (sharedItems gaItems deItems).Nodup) ∧
    (gaItems.Nodup → (sharedItems gaItems deItems).Nodup) := by
  have hmem : ∀ x : ℕ, x ∈ sharedItems gaItems deItems ↔ x ∈ gaItems ∧ x ∈ deItems := by
    intro x
    simp [sharedItems, List.mem_filter, List.elem_iff]
  have hset : (sharedItems gaItems deItems).toFinset =
      gaItems.toFinset ∩ deItems.toFinset := by
    ext x
    simp only [List.mem_toFinset, Finset.mem_inter, hmem]
  refine ⟨hset, ?_, ?_, fun hnd => hnd.filter _⟩
  · intro x
    by_cases hx : x ∈ deItems
    · simp only [hx, if_true]
      exact List.count_filter (by simpa [List.elem_iff] using hx)
    · simp only [hx, if_false]
      exact List.count_eq_zero.mpr (fun hc => hx ((hmem x).mp hc).2)
  · rw [← hset, List.card_toFinset, commonItemsCount]
    constructor
    · intro h
      have hsub := List.dedup_sublist (sharedItems gaItems deItems)
      have he := hsub.eq_of_length h.symm
      rw [← he]
      exact List.nodup_dedup _
    · intro h
      rw [h.dedup]

/-- C1 witness: the amended characterization at the reviewer-relevant
inputs: GA build `[3,3,1,4,5,6,7]` duplicates an unshared id, so its shared
entries are duplicate-free and the reported size does equal the distinct
shared count; the spec scenario's duplicate-free GA build
`[1,2,3,4,5,6,7]` has duplicate-free shared entries. -/
theorem comparator_common_items_characterization_witness :
    ((sharedItems [3, 3, 1, 4, 5, 6, 7] [1, 2, 8, 9, 10, 11, 12]).toFinset =
        ([3, 3, 1, 4, 5, 6, 7] : List ℕ).toFinset ∩
          ([1, 2, 8, 9, 10, 11, 12] : List ℕ).toFinset) ∧
    commonItemsCount [3, 3, 1, 4, 5, 6, 7] [1, 2, 8, 9, 10, 11, 12] =
      (([3, 3, 1, 4, 5, 6, 7] : List ℕ).toFinset ∩
        ([1, 2, 8, 9, 10, 11, 12] : List ℕ).toFinset).card ∧
    (sharedItems [1, 2, 3, 4, 5, 6, 7] [1, 2, 8, 9, 10, 11, 12]).Nodup := by
  obtain ⟨h1, _, h3, _⟩ :=
    comparator_common_items_characterization
      [3, 3, 1, 4, 5, 6, 7] [1, 2, 8, 9, 10, 11, 12]
  obtain ⟨_, _, _, h4⟩ :=
    comparator_common_items_characterization
      [1, 2, 3, 4, 5, 6, 7] [1, 2, 8, 9, 10, 11, 12]
  exact ⟨h1, h3.mpr (by decide), h4 (by decide)⟩

/-- C2: on GA optimal build `[1,2,3,4,5,6,7]` and DE optimal build
`[1,2,8,9,10,11,12]` the comparator reports common items `[1,2]` (the set
`{1,2}`, size 2) and an overlap ratio of `2/7`. -/
theorem comparator_overlap_scenario :
    sharedItems [1, 2, 3, 4, 5, 6, 7] [1, 2, 8, 9, 10, 11, 12] = [1, 2] ∧
    (sharedItems [1, 2, 3, 4, 5, 6, 7] [1, 2, 8, 9, 10, 11, 12]).toFinset =
      ({1, 2} : Finset ℕ) ∧
    commonItemsCount [1, 2, 3, 4, 5, 6, 7] [1, 2, 8, 9, 10, 11, 12] = 2 ∧
    overlapRatio [1, 2, 3, 4, 5, 6, 7] [1, 2, 8, 9, 10, 11, 12] = 2 / 7 := by
  refine ⟨rfl, by decide, rfl, ?_⟩
  norm_num [overlapRatio, commonItemsCount, sharedItems]

end LolOpt

namespace LolOpt

/-! ## Composite fitness.  Modelled from the spec (section 4.1): the Python
optimizer files `lol_genetic_algorithm.py` and `lol_differential_evolution.py`
are not in the repository snapshot. -/

/-- Modelled from the spec: the non-zero (non-empty) slots of a build. -/
def nonZeroItems (b : List ℕ) : List ℕ :=
  b.filter (fun s => s ≠ 0)

/-- Modelled from the spec: the number of distinct non-zero items of a build. -/
def distinctItemCount (b : List ℕ) : ℕ :=
  (nonZeroItems b).dedup.length

/-- Modelled from the spec: the number of non-zero slots of a build. -/
def filledSlotCount (b : List ℕ) : ℕ :=
  (nonZeroItems b).length

/-- Modelled from the spec: `diversity_bonus = (count of distinct non-zero
items) / 7 * 0.1`. -/
def diversityBonus (b : List ℕ) : ℚ :=
  (distinctItemCount b : ℚ) / 7 * (1 / 10)

/-- Modelled from the spec: `completion_bonus = (count of non-zero slots)
/ 7 * 0.05`. -/
def completionBonus (b : List ℕ) : ℚ :=
  (filledSlotCount b : ℚ) / 7 * (1 / 20)

/-- Modelled from the spec: the composite fitness
`win_probability + diversity_bonus + completion_bonus` driving selection in
both engines; the oracle argument is the win-probability predictor. -/
def compositeFitness (oracle : List ℕ → ℚ) (b : List ℕ) : ℚ :=
  oracle b + diversityBonus b + completionBonus b

lemma length_filter_ne_add_count (l : List ℕ) :
    (l.filter (fun s => s ≠ 0)).length + l.count 0 = l.length := by
  induction l with
  | nil => simp
  | cons a t ih =>
    by_cases ha : a = 0
    · subst ha
      simp [List.count_cons, ih.symm]
      omega
    · simp [List.filter_cons, ha, List.count_cons, ← ih]
      omega

lemma distinctItemCount_eq_card (b : List ℕ) :
    distinctItemCount b = (b.toFinset.erase 0).card := by
  have hset : (nonZeroItems b).toFinset = b.toFinset.erase 0 := by
    ext x
    simp [nonZeroItems, List.mem_filter, Finset.mem_erase, and_comm]
  rw [distinctItemCount, ← List.card_toFinset, hset]

lemma nonZeroItems_replicate_zero : nonZeroItems (List.replicate 7 0) = [] := by
  decide

/-- C3: for every 7-slot build the composite fitness equals the win
probability plus `(distinct non-zero items)/7 * 0.1` plus
`(non-zero slots)/7 * 0.05` (the non-zero slot count written as
`7 - count of zero slots`), and the all-zero build gets both bonuses `0`,
hence composite fitness equal to its raw win probability. -/
theorem composite_fitness_formula (oracle : List ℕ → ℚ) (b : List ℕ)
    (hlen : b.length = 7) :
    compositeFitness oracle b =
      oracle b + ((b.toFinset.erase 0).card : ℚ) / 7 * (1 / 10)
        + (((7 - b.count 0 : ℕ) : ℚ)) / 7 * (1 / 20) ∧
    diversityBonus (List.replicate 7 0) = 0 ∧
    completionBonus (List.replicate 7 0) = 0 ∧
    compositeFitness oracle (List.replicate 7 0) =
      oracle (List.replicate 7 0) := by
  have hdiv : diversityBonus (List.replicate 7 0) = 0 := by
    rw [diversityBonus, distinctItemCount, nonZeroItems_replicate_zero]
    norm_num
  have hcomp : completionBonus (List.replicate 7 0) = 0 := by
    rw [completionBonus, filledSlotCount, nonZeroItems_replicate_zero]
    norm_num
  refine ⟨?_, hdiv, hcomp, ?_⟩
  · have hfill : filledSlotCount b = 7 - b.count 0 := by
      have := length_filter_ne_add_count b
      rw [hlen] at this
      rw [filledSlotCount, nonZeroItems]
      omega
    rw [compositeFitness, diversityBonus, completionBonus,
      distinctItemCount_eq_card, hfill]
  · rw [compositeFitness, hdiv, hcomp, add_zero, add_zero]

/-- C3 witness: the fitness formula evaluated on the build
`[3, 3, 0, 4, 5, 0, 6]` with a constant oracle. -/
theorem composite_fitness_formula_witness :
    compositeFitness (fun _ => 1 / 2) [3, 3, 0, 4, 5, 0, 6] =
      (fun (_ : List ℕ) => (1 / 2 : ℚ)) [3, 3, 0, 4, 5, 0, 6]
        + ((([3, 3, 0, 4, 5, 0, 6] : List ℕ).toFinset.erase 0).card : ℚ)
          / 7 * (1 / 10)
        + (((7 - ([3, 3, 0, 4, 5, 0, 6] : List ℕ).count 0 : ℕ) : ℚ)) / 7 * (1 / 20) ∧
    diversityBonus (List.replicate 7 0) = 0 ∧
    completionBonus (List.replicate 7 0) = 0 ∧
    compositeFitness (fun _ => 1 / 2) (List.replicate 7 0) =
      (fun (_ : List ℕ) => (1 / 2 : ℚ)) (List.replicate 7 0) :=
  composite_fitness_formula (fun _ => 1 / 2) [3, 3, 0, 4, 5, 0, 6] (by decide)

/-! ## DE decoding.  Modelled from the spec (section 4.3). -/

/-- Modelled from the spec: the DE decoding of one continuous component
(`lol_differential_evolution.py` is not in the repository snapshot): a
component below the `0.1` threshold decodes to the empty slot `0`, otherwise
`[0.1, 1.0]` is mapped linearly onto the pool index
`floor((v - 0.1) / 0.9 * pool_size)` clamped to `[0, pool_size - 1]`. -/
def decodeComponent (pool : List ℕ) (v : ℚ) : ℕ :=
  if v < 1 / 10 then 0
  else pool.getD (min (⌊(v - 1 / 10) / (9 / 10) * (pool.length : ℚ)⌋.toNat)
    (pool.length - 1)) 0

/-- Modelled from the spec: a DE continuous vector decodes slot-wise. -/
def decodeVector (pool : List ℕ) (vs : List ℚ) : List ℕ :=
  vs.map (decodeComponent pool)

/-- C4: for a component `v` in `[0,1]` and a non-empty pool, decoding gives
`0` below the `0.1` threshold and otherwise the pool entry at index
`min ⌊(v - 0.1)/0.9 * size⌋ (size - 1)` (an always in-range index); for a
pool of size 10, `v = 0.05` decodes to `0`, `v = 0.1` to the first entry and
`v = 1.0` to the last entry. -/
theorem de_decode_characterization (pool : List ℕ) (v : ℚ)
    (hne : pool ≠ []) (h0 : 0 ≤ v) (h1 : v ≤ 1) :
    (v < 1 / 10 → decodeComponent pool v = 0) ∧
    (1 / 10 ≤ v →
      decodeComponent pool v =
        pool.getD (min (⌊(v - 1 / 10) / (9 / 10) * (pool.length : ℚ)⌋.toNat)
          (pool.length - 1)) 0 ∧
      min (⌊(v - 1 / 10) / (9 / 10) * (pool.length : ℚ)⌋.toNat) (pool.length - 1)
        < pool.length) ∧
    (pool.length = 10 →
      decodeComponent pool (1 / 20) = 0 ∧
      decodeComponent pool (1 / 10) = pool.getD 0 0 ∧
      decodeComponent pool 1 = pool.getD 9 0) := by
  have hp : 0 < pool.length := List.length_pos.mpr hne
  refine ⟨?_, ?_, ?_⟩
  · intro hv
    simp only [decodeComponent, if_pos hv]
  · intro hv
    have hnlt : ¬ v < 1 / 10 := not_lt.mpr hv
    refine ⟨by simp only [decodeComponent, if_neg hnlt], ?_⟩
    have hmin : min (⌊(v - 1 / 10) / (9 / 10) * (pool.length : ℚ)⌋.toNat)
        (pool.length - 1) ≤ pool.length - 1 := min_le_right _ _
    omega
  · intro hlen
    refine ⟨?_, ?_, ?_⟩
    · have hv : (1 / 20 : ℚ) < 1 / 10 := by norm_num
      simp only [decodeComponent, if_pos hv]
    · have hnlt : ¬ (1 / 10 : ℚ) < 1 / 10 := lt_irrefl _
      have hidx : ⌊((1 / 10 : ℚ) - 1 / 10) / (9 / 10) * ((pool.length : ℕ) : ℚ)⌋ = 0 := by
        norm_num
      simp only [decodeComponent, if_neg hnlt, hidx, Int.toNat_zero, hlen]
      norm_num
    · have hnlt : ¬ (1 : ℚ) < 1 / 10 := by norm_num
      have hidx : ⌊((1 : ℚ) - 1 / 10) / (9 / 10) * ((pool.length : ℕ) : ℚ)⌋ = 10 := by
        rw [hlen]
        norm_num
      simp only [decodeComponent, if_neg hnlt, hidx, hlen]
      norm_num

/-- C4 witness: decoding at the upper boundary `v = 1` of a pool of size 10. -/
theorem de_decode_characterization_witness :
    ((1 : ℚ) < 1 / 10 →
      decodeComponent [11, 12, 13, 14, 15, 16, 17, 18, 19, 20] 1 = 0) ∧
    ((1 / 10 : ℚ) ≤ 1 →
      decodeComponent [11, 12, 13, 14, 15, 16, 17, 18, 19, 20] 1 =
        [11, 12, 13, 14, 15, 16, 17, 18, 19, 20].getD
          (min (⌊((1 : ℚ) - 1 / 10) / (9 / 10) *
            (([11, 12, 13, 14, 15, 16, 17, 18, 19, 20] : List ℕ).length : ℚ)⌋.toNat)
            (([11, 12, 13, 14, 15, 16, 17, 18, 19, 20] : List ℕ).length - 1)) 0 ∧
      min (⌊((1 : ℚ) - 1 / 10) / (9 / 10) *
          (([11, 12, 13, 14, 15, 16, 17, 18, 19, 20] : List ℕ).length : ℚ)⌋.toNat)
        (([11, 12, 13, 14, 15, 16, 17, 18, 19, 20] : List ℕ).length - 1)
        < ([11, 12, 13, 14, 15, 16, 17, 18, 19, 20] : List ℕ).length) ∧
    (([11, 12, 13, 14, 15, 16, 17, 18, 19, 20] : List ℕ).length = 10 →
      decodeComponent [11, 12, 13, 14, 15, 16, 17, 18, 19, 20] (1 / 20) = 0 ∧
      decodeComponent [11, 12, 13, 14, 15, 16, 17, 18, 19, 20] (1 / 10) =
        [11, 12, 13, 14, 15, 16, 17, 18, 19, 20].getD 0 0 ∧
      decodeComponent [11, 12, 13, 14, 15, 16, 17, 18, 19, 20] 1 =
        [11, 12, 13, 14, 15, 16, 17, 18, 19, 20].getD 9 0) :=
  de_decode_characterization [11, 12, 13, 14, 15, 16, 17, 18, 19, 20] 1
    (by decide) (by decide) (by decide)

end LolOpt

namespace LolOpt

/-! ## Seeded randomness and the GA engine.  Modelled from the spec
(sections 4.2, 7): `lol_genetic_algorithm.py` is not in the repository
snapshot; the engine below follows the spec's state machine, with a linear
congruential generator standing in for the missing implementation's seeded
random number generator (the spec fixes only that runs are deterministic
given the seed). -/

/-- Modelled from the spec: the state of the seeded pseudo-random number
generator threaded through a run. -/
structure RNG where
  state : ℕ
deriving DecidableEq

/-- Modelled from the spec: one step of the linear congruential generator,
returning a raw draw below `2^31` and the next state. -/
def rngNext (r : RNG) : ℕ × RNG :=
  let s := (r.state * 1103515245 + 12345) % 2147483648
  (s, ⟨s⟩)

/-- Modelled from the spec: a uniform draw in `[0,1)` as a rational. -/
def randUnit (r : RNG) : ℚ × RNG :=
  let (n, r₁) := rngNext r
  ((n : ℚ) / 2147483648, r₁)

/-- Modelled from the spec: a uniform draw in `[0, bound)`. -/
def randNat (r : RNG) (bound : ℕ) : ℕ × RNG :=
  let (n, r₁) := rngNext r
  (n % bound, r₁)

/-- Modelled from the spec: a GA Individual, one build plus its cached
composite fitness. -/
structure Individual where
  build : List ℕ
  fitness : ℚ
deriving DecidableEq

/-- Modelled from the spec: the higher-fitness individual of two, keeping
the first on ties. -/
def maxIndiv (a b : Individual) : Individual :=
  if a.fitness < b.fitness then b else a

/-- Modelled from the spec: the best individual of a population (the
default answer is only used for an empty population). -/
def bestOfPop (dflt : Individual) : List Individual → Individual
  | [] => dflt
  | x :: xs => xs.foldl maxIndiv x

/-- Modelled from the spec: GA engine configuration (defaults: population
50, generations 100, crossover 0.8, mutation 0.15, elite 5, tournament 3).
The population size is an integer so that the mis-configured zero and
negative cases of the error taxonomy are representable. -/
structure GAConfig where
  populationSize : ℤ
  generations : ℕ
  crossoverRate : ℚ
  mutationRate : ℚ
  eliteSize : ℕ
  tournamentSize : ℕ
  emptySlotProb : ℚ
deriving DecidableEq

/-- Modelled from the spec: one random slot, empty with probability
`emptyProb`, otherwise a uniformly random pool item. -/
def randSlot (pool : List ℕ) (emptyProb : ℚ) (r : RNG) : ℕ × RNG :=
  let (u, r₁) := randUnit r
  if u < emptyProb then (0, r₁)
  else
    let (k, r₂) := randNat r₁ pool.length
    (pool.getD k 0, r₂)

/-- Modelled from the spec: a random build of `n` slots. -/
def randBuild (pool : List ℕ) (emptyProb : ℚ) : ℕ → RNG → List ℕ × RNG
  | 0, r => ([], r)
  | n + 1, r =>
    let (s, r₁) := randSlot pool emptyProb r
    let (rest, r₂) := randBuild pool emptyProb n r₁
    (s :: rest, r₂)

/-- Modelled from the spec: `n` random scored individuals. -/
def initPopulation (oracle : List ℕ → ℚ) (pool : List ℕ) (emptyProb : ℚ) :
    ℕ → RNG → List Individual × RNG
  | 0, r => ([], r)
  | n + 1, r =>
    let (b, r₁) := randBuild pool emptyProb 7 r
    let (rest, r₂) := initPopulation oracle pool emptyProb n r₁
    ({ build := b, fitness := compositeFitness oracle b } :: rest, r₂)

/-- Modelled from the spec: a uniformly random individual of the
population. -/
def randomIndividual (pop : List Individual) (dflt : Individual) (r : RNG) :
    Individual × RNG :=
  let (i, r₁) := randNat r pop.length
  (pop.getD i dflt, r₁)

/-- Modelled from the spec: the remaining samples of a tournament, keeping
the fittest seen. -/
def tournamentGo (pop : List Individual) (dflt : Individual) :
    ℕ → Individual → RNG → Individual × RNG
  | 0, best, r => (best, r)
  | t + 1, best, r =>
    let (c, r₁) := randomIndividual pop dflt r
    tournamentGo pop dflt t (maxIndiv best c) r₁

/-- Modelled from the spec: tournament selection with tournament size `t`:
sample `t` individuals uniformly with replacement, keep the fittest. -/
def tournamentSelect (pop : List Individual) (dflt : Individual) (t : ℕ)
    (r : RNG) : Individual × RNG :=
  let (c, r₁) := randomIndividual pop dflt r
  tournamentGo pop dflt (t - 1) c r₁

/-- Modelled from the spec: single-point crossover at cut index `cut`. -/
def singlePointCross (b₁ b₂ : List ℕ) (cut : ℕ) : List ℕ × List ℕ :=
  (b₁.take cut ++ b₂.drop cut, b₂.take cut ++ b₁.drop cut)

/-- Modelled from the spec: a uniformly random value of `{0} ∪ pool`. -/
def randPoolOrEmpty (pool : List ℕ) (r : RNG) : ℕ × RNG :=
  let (k, r₁) := randNat r (pool.length + 1)
  (if k = 0 then 0 else pool.getD (k - 1) 0, r₁)

/-- Modelled from the spec: per-slot mutation with probability `rate`. -/
def mutateBuild (pool : List ℕ) (rate : ℚ) : List ℕ → RNG → List ℕ × RNG
  | [], r => ([], r)
  | s :: rest, r =>
    let (u, r₁) := randUnit r
    let sr := if u < rate then randPoolOrEmpty pool r₁ else (s, r₁)
    let (rest', r₃) := mutateBuild pool rate rest sr.2
    (sr.1 :: rest', r₃)

/-- Modelled from the spec: two offspring from tournament parents, by
single-point crossover (cut uniform in `[1,6]`) with probability
`crossoverRate`, then per-slot mutation, then scoring. -/
def makeOffspring (oracle : List ℕ → ℚ) (pool : List ℕ) (cfg : GAConfig)
    (pop : List Individual) (dflt : Individual) (r : RNG) :
    Individual × Individual × RNG :=
  let (p₁, r₁) := tournamentSelect pop dflt cfg.tournamentSize r
  let (p₂, r₂) := tournamentSelect pop dflt cfg.tournamentSize r₁
  let (u, r₃) := randUnit r₂
  let cr :=
    if u < cfg.crossoverRate then
      let (k, r₄) := randNat r₃ 6
      let ab := singlePointCross p₁.build p₂.build (k + 1)
      (ab.1, ab.2, r₄)
    else (p₁.build, p₂.build, r₃)
  let (m₁, r₅) := mutateBuild pool cfg.mutationRate cr.1 cr.2.2
  let (m₂, r₆) := mutateBuild pool cfg.mutationRate cr.2.1 r₅
  ({ build := m₁, fitness := compositeFitness oracle m₁ },
   { build := m₂, fitness := compositeFitness oracle m₂ }, r₆)

/-- Modelled from the spec: insertion into a fitness-descending list. -/
def insertByFitness (x : Individual) : List Individual → List Individual
  | [] => [x]
  | y :: ys => if y.fitness ≤ x.fitness then x :: y :: ys
    else y :: insertByFitness x ys

/-- Modelled from the spec: the population sorted by descending fitness. -/
def sortByFitnessDesc (pop : List Individual) : List Individual :=
  pop.foldr insertByFitness []

/-- Modelled from the spec: `n` offspring pairs bred from the current
population. -/
def breed (oracle : List ℕ → ℚ) (pool : List ℕ) (cfg : GAConfig)
    (pop : List Individual) (dflt : Individual) : ℕ → RNG → List Individual × RNG
  | 0, r => ([], r)
  | n + 1, r =>
    let (c₁, c₂, r₁) := makeOffspring oracle pool cfg pop dflt r
    let (rest, r₂) := breed oracle pool cfg pop dflt n r₁
    (c₁ :: c₂ :: rest, r₂)

/-- Modelled from the spec: one GA generation: copy the `eliteSize` fittest
unchanged, fill the remainder with bred offspring, trim to the population
size. -/
def gaStep (oracle : List ℕ → ℚ) (pool : List ℕ) (cfg : GAConfig)
    (dflt : Individual) (psize : ℕ) (pop : List Individual) (r : RNG) :
    List Individual × RNG :=
  let elite := (sortByFitnessDesc pop).take cfg.eliteSize
  let (children, r₁) := breed oracle pool cfg pop dflt (psize - elite.length) r
  ((elite ++ children).take psize, r₁)

/-- Modelled from the spec: the generation loop, threading the best-ever
individual as an explicit accumulator and recording its fitness once per
generation as the convergence history. -/
def gaLoop (oracle : List ℕ → ℚ) (pool : List ℕ) (cfg : GAConfig)
    (dflt : Individual) (psize : ℕ) :
    ℕ → RNG → List Individual → Individual → Individual × List ℚ
  | 0, _, _, best => (best, [])
  | g + 1, r, pop, best =>
    let pr := gaStep oracle pool cfg dflt psize pop r
    let best' := maxIndiv best (bestOfPop dflt pr.1)
    let next := gaLoop oracle pool cfg dflt psize g pr.2 pr.1 best'
    (next.1, best'.fitness :: next.2)

/-- Modelled from the spec: the error taxonomy's configuration errors. -/
inductive ConfigError where
  | emptyPopulation
  | degenerateTolerance
  | invalidRate
deriving DecidableEq

/-- Modelled from the spec: a per-engine optimization result: best build,
its fitness, and the per-generation best-fitness history. -/
structure EngineResult where
  build : List ℕ
  fitness : ℚ
  convergenceHistory : List ℚ
deriving DecidableEq

/-- Modelled from the spec: validation of a GA configuration, performed
before any generation runs. -/
def validateGAConfig (cfg : GAConfig) : Option ConfigError :=
  if cfg.populationSize ≤ 0 then some .emptyPopulation
  else if ¬(0 ≤ cfg.crossoverRate ∧ cfg.crossoverRate ≤ 1) then some .invalidRate
  else if ¬(0 ≤ cfg.mutationRate ∧ cfg.mutationRate ≤ 1) then some .invalidRate
  else none

/-- Modelled from the spec: the scored all-empty build, used as the default
answer where the engine reads from a population that cannot be empty in a
validated run. -/
def defaultIndividual (oracle : List ℕ → ℚ) : Individual :=
  { build := List.replicate 7 0
    fitness := compositeFitness oracle (List.replicate 7 0) }

/-- Modelled from the spec: a GA run on an already validated population
size `psize`. -/
def gaRunValid (oracle : List ℕ → ℚ) (pool : List ℕ) (cfg : GAConfig)
    (psize : ℕ) (seed : ℕ) : EngineResult :=
  let dflt := defaultIndividual oracle
  let ir := initPopulation oracle pool cfg.emptySlotProb psize ⟨seed⟩
  let best0 := bestOfPop dflt ir.1
  let bh := gaLoop oracle pool cfg dflt psize cfg.generations ir.2 ir.1 best0
  { build := bh.1.build, fitness := bh.1.fitness, convergenceHistory := bh.2 }

/-- Modelled from the spec: the full GA run: reject invalid configurations
before any generation, otherwise optimize. -/
def runGA (oracle : List ℕ → ℚ) (pool : List ℕ) (cfg : GAConfig) (seed : ℕ) :
    Except ConfigError EngineResult :=
  match validateGAConfig cfg with
  | some e => .error e
  | none => .ok (gaRunValid oracle pool cfg cfg.populationSize.toNat seed)

end LolOpt

namespace LolOpt

/-! ## DE engine.  Modelled from the spec (section 4.3):
`lol_differential_evolution.py` is not in the repository snapshot. -/

/-- Modelled from the spec: hard clamp of a component to `[0,1]` (clip,
never wrap or reflect). -/
def clamp01 (x : ℚ) : ℚ :=
  max 0 (min 1 x)

/-- Modelled from the spec: a vector of `n` uniform draws in `[0,1)`. -/
def randUnitVec : ℕ → RNG → List ℚ × RNG
  | 0, r => ([], r)
  | n + 1, r =>
    let (u, r₁) := randUnit r
    let (rest, r₂) := randUnitVec n r₁
    (u :: rest, r₂)

/-- Modelled from the spec: the initial DE population: `n` random
continuous vectors of length 7. -/
def deInitPop : ℕ → RNG → List (List ℚ) × RNG
  | 0, r => ([], r)
  | n + 1, r =>
    let (v, r₁) := randUnitVec 7 r
    let (rest, r₂) := deInitPop n r₁
    (v :: rest, r₂)

/-- Modelled from the spec: maps a draw from `[0, P-1)` to an index of
`[0, P) \ \x7bi\x7d` (part of sampling without replacement by skipping). -/
def skipIndex (i k : ℕ) : ℕ :=
  if k < i then k else k + 1

/-- Modelled from the spec: three indices `a, b, c` distinct from the
target index `i` and from each other, sampled by drawing from shrinking
ranges and skipping the already excluded indices in ascending order. -/
def pick3 (P i : ℕ) (r : RNG) : (ℕ × ℕ × ℕ) × RNG :=
  let (k₁, r₁) := randNat r (P - 1)
  let a := skipIndex i k₁
  let lo := min i a
  let hi := max i a
  let (k₂, r₂) := randNat r₁ (P - 2)
  let b := skipIndex hi (skipIndex lo k₂)
  let s₁ := min lo (min hi b)
  let s₃ := max lo (max hi b)
  let s₂ := lo + hi + b - s₁ - s₃
  let (k₃, r₃) := randNat r₂ (P - 3)
  let c := skipIndex s₃ (skipIndex s₂ (skipIndex s₁ k₃))
  ((a, b, c), r₃)

/-- Modelled from the spec: the DE/rand/1 mutant `a + F * (b - c)`,
component-wise, each component clipped to `[0,1]`. -/
def deMutantVec (F : ℚ) : List ℚ → List ℚ → List ℚ → List ℚ
  | a :: as, b :: bs, c :: cs => clamp01 (a + F * (b - c)) :: deMutantVec F as bs cs
  | _, _, _ => []

/-- Modelled from the spec: binomial crossover: each component comes from
the mutant with probability `CR`, and the component at the forced index
`jrand` comes from the mutant regardless of the coin flip. -/
def deCrossVec (CR : ℚ) (jrand : ℕ) : List ℚ → List ℚ → ℕ → RNG → List ℚ × RNG
  | m :: ms, t :: ts, j, r =>
    let (u, r₁) := randUnit r
    let comp := if u < CR ∨ j = jrand then m else t
    let (rest, r₂) := deCrossVec CR jrand ms ts (j + 1) r₁
    (comp :: rest, r₂)
  | _, _, _, r => ([], r)

/-- Modelled from the spec: the all-zero continuous vector, the default
answer where the engine reads from a population that cannot be empty in a
validated run. -/
def zeroVec : List ℚ :=
  List.replicate 7 0

/-- Modelled from the spec: the composite fitness of a decoded continuous
vector. -/
def deFitness (oracle : List ℕ → ℚ) (pool : List ℕ) (v : List ℚ) : ℚ :=
  compositeFitness oracle (decodeVector pool v)

/-- Modelled from the spec: one DE target update: DE/rand/1 mutation with
clipping, binomial crossover with a forced index, then greedy survivor
selection (the trial replaces the target exactly when its fitness is at
least the target's). -/
def deNewIndividual (oracle : List ℕ → ℚ) (pool : List ℕ) (F CR : ℚ)
    (pop : List (List ℚ)) (P i : ℕ) (r : RNG) : List ℚ × RNG :=
  let target := pop.getD i zeroVec
  let abc := (pick3 P i r).1
  let r₁ := (pick3 P i r).2
  let mutant := deMutantVec F (pop.getD abc.1 zeroVec)
    (pop.getD abc.2.1 zeroVec) (pop.getD abc.2.2 zeroVec)
  let jrand := (randNat r₁ 7).1
  let r₂ := (randNat r₁ 7).2
  let trial := (deCrossVec CR jrand mutant target 0 r₂).1
  let r₃ := (deCrossVec CR jrand mutant target 0 r₂).2
  if deFitness oracle pool target ≤ deFitness oracle pool trial
  then (trial, r₃) else (target, r₃)

/-- Modelled from the spec: the new population, built from scratch from the
completed previous generation, one survivor selection per index. -/
def deStepGo (oracle : List ℕ → ℚ) (pool : List ℕ) (F CR : ℚ)
    (pop : List (List ℚ)) (P : ℕ) : List ℕ → RNG → List (List ℚ) × RNG
  | [], r => ([], r)
  | i :: is, r =>
    let (v, r₁) := deNewIndividual oracle pool F CR pop P i r
    let (rest, r₂) := deStepGo oracle pool F CR pop P is r₁
    (v :: rest, r₂)

/-- Modelled from the spec: one DE generation over all target indices. -/
def deStep (oracle : List ℕ → ℚ) (pool : List ℕ) (F CR : ℚ)
    (pop : List (List ℚ)) (P : ℕ) (r : RNG) : List (List ℚ) × RNG :=
  deStepGo oracle pool F CR pop P (List.range P) r

/-- Modelled from the spec: the DE population (with generator state) after
`g` generations. -/
def dePopAfter (oracle : List ℕ → ℚ) (pool : List ℕ) (F CR : ℚ)
    (P seed : ℕ) : ℕ → List (List ℚ) × RNG
  | 0 => deInitPop P ⟨seed⟩
  | g + 1 =>
    let pr := dePopAfter oracle pool F CR P seed g
    deStep oracle pool F CR pr.1 P pr.2

/-- Modelled from the spec: DE engine configuration (defaults: population
50, generations 200, F 0.5, CR 0.9). -/
structure DEConfig where
  populationSize : ℤ
  generations : ℕ
  F : ℚ
  CR : ℚ
deriving DecidableEq

/-- Modelled from the spec: the best decoded individual of a DE
population. -/
def deBestOf (oracle : List ℕ → ℚ) (pool : List ℕ) (dflt : Individual)
    (pop : List (List ℚ)) : Individual :=
  bestOfPop dflt (pop.map (fun v =>
    { build := decodeVector pool v, fitness := deFitness oracle pool v }))

/-- Modelled from the spec: the DE generation loop with best-ever
accumulator and per-generation history, mirroring the GA loop. -/
def deLoop (oracle : List ℕ → ℚ) (pool : List ℕ) (F CR : ℚ)
    (dflt : Individual) (P : ℕ) :
    ℕ → RNG → List (List ℚ) → Individual → Individual × List ℚ
  | 0, _, _, best => (best, [])
  | g + 1, r, pop, best =>
    let pr := deStep oracle pool F CR pop P r
    let best' := maxIndiv best (deBestOf oracle pool dflt pr.1)
    let next := deLoop oracle pool F CR dflt P g pr.2 pr.1 best'
    (next.1, best'.fitness :: next.2)

/-- Modelled from the spec: validation of a DE configuration: zero or
negative population is an empty-population error; a positive population
below 4 cannot supply three distinct other individuals and is a
degenerate-tolerance error; both are rejected before any generation. -/
def validateDEConfig (cfg : DEConfig) : Option ConfigError :=
  if cfg.populationSize ≤ 0 then some .emptyPopulation
  else if cfg.populationSize < 4 then some .degenerateTolerance
  else if ¬(0 ≤ cfg.CR ∧ cfg.CR ≤ 1) then some .invalidRate
  else none

/-- Modelled from the spec: a DE run on an already validated population
size `psize`. -/
def deRunValid (oracle : List ℕ → ℚ) (pool : List ℕ) (cfg : DEConfig)
    (psize : ℕ) (seed : ℕ) : EngineResult :=
  let dflt := defaultIndividual oracle
  let ir := deInitPop psize ⟨seed⟩
  let best0 := deBestOf oracle pool dflt ir.1
  let bh := deLoop oracle pool cfg.F cfg.CR dflt psize cfg.generations ir.2 ir.1 best0
  { build := bh.1.build, fitness := bh.1.fitness, convergenceHistory := bh.2 }

/-- Modelled from the spec: the full DE run: reject invalid configurations
before any generation, otherwise optimize. -/
def runDE (oracle : List ℕ → ℚ) (pool : List ℕ) (cfg : DEConfig) (seed : ℕ) :
    Except ConfigError EngineResult :=
  match validateDEConfig cfg with
  | some e => .error e
  | none => .ok (deRunValid oracle pool cfg cfg.populationSize.toNat seed)

end LolOpt

namespace LolOpt

/-! ## GA best-ever monotonicity and seeded reproducibility. -/

lemma fitness_le_maxIndiv_left (a b : Individual) :
    a.fitness ≤ (maxIndiv a b).fitness := by
  rw [maxIndiv]
  split
  · exact le_of_lt (by assumption)
  · exact le_refl _

lemma getLastD_irrel : ∀ (l : List ℚ) (d₁ d₂ : ℚ), l ≠ [] →
    l.getLastD d₁ = l.getLastD d₂
  | [], _, _, h => absurd rfl h
  | a :: l, _, _, _ => by rw [List.getLastD_cons, List.getLastD_cons]

/-- The per-generation history entries never exceed the final best
fitness. -/
def FitnessDominates (c : ℚ) (hist : List ℚ) : Prop :=
  ∀ f ∈ hist, f ≤ c

lemma gaLoop_spec (oracle : List ℕ → ℚ) (pool : List ℕ) (cfg : GAConfig)
    (dflt : Individual) (psize : ℕ) :
    ∀ (g : ℕ) (r : RNG) (pop : List Individual) (best : Individual),
      best.fitness ≤ (gaLoop oracle pool cfg dflt psize g r pop best).1.fitness ∧
      List.Chain' (· ≤ ·)
        (best.fitness :: (gaLoop oracle pool cfg dflt psize g r pop best).2) ∧
      FitnessDominates (gaLoop oracle pool cfg dflt psize g r pop best).1.fitness
        (gaLoop oracle pool cfg dflt psize g r pop best).2 ∧
      (gaLoop oracle pool cfg dflt psize g r pop best).2.getLastD best.fitness =
        (gaLoop oracle pool cfg dflt psize g r pop best).1.fitness ∧
      (gaLoop oracle pool cfg dflt psize g r pop best).2.length = g := by
  intro g
  induction g with
  | zero =>
    intro r pop best
    refine ⟨le_refl _, ?_, ?_, rfl, rfl⟩
    · simp [gaLoop]
    · intro f hf
      simp [gaLoop] at hf
  | succ g ih =>
    intro r pop best
    simp only [gaLoop]
    obtain ⟨ih₁, ih₂, ih₃, ih₄, ih₅⟩ :=
      ih (gaStep oracle pool cfg dflt psize pop r).2
        (gaStep oracle pool cfg dflt psize pop r).1
        (maxIndiv best (bestOfPop dflt (gaStep oracle pool cfg dflt psize pop r).1))
    have hbb : best.fitness ≤
        (maxIndiv best (bestOfPop dflt (gaStep oracle pool cfg dflt psize pop r).1)).fitness :=
      fitness_le_maxIndiv_left _ _
    refine ⟨le_trans hbb ih₁, ?_, ?_, ?_, by simpa using ih₅⟩
    · rw [List.chain'_cons]
      exact ⟨hbb, ih₂⟩
    · intro f hf
      rcases List.mem_cons.mp hf with rfl | hf'
      · exact ih₁
      · exact ih₃ f hf'
    · rw [List.getLastD_cons]
      exact ih₄

/-- C5: in a GA run the tracked best-ever fitness never regresses: the
convergence history (one best-ever fitness entry per generation) is
non-decreasing generation over generation, has one entry per configured
generation, every entry is dominated by the returned result, and the
returned result is the final best-ever value (the best seen across all
generations, not merely the final population's best). -/
theorem ga_best_never_regresses (oracle : List ℕ → ℚ) (pool : List ℕ)
    (cfg : GAConfig) (psize seed : ℕ) :
    List.Chain' (· ≤ ·)
      (gaRunValid oracle pool cfg psize seed).convergenceHistory ∧
    FitnessDominates (gaRunValid oracle pool cfg psize seed).fitness
      (gaRunValid oracle pool cfg psize seed).convergenceHistory ∧
    (gaRunValid oracle pool cfg psize seed).convergenceHistory.getLastD
      (gaRunValid oracle pool cfg psize seed).fitness =
      (gaRunValid oracle pool cfg psize seed).fitness ∧
    (gaRunValid oracle pool cfg psize seed).convergenceHistory.length =
      cfg.generations := by
  simp only [gaRunValid]
  obtain ⟨h₁, h₂, h₃, h₄, h₅⟩ :=
    gaLoop_spec oracle pool cfg (defaultIndividual oracle) psize cfg.generations
      (initPopulation oracle pool cfg.emptySlotProb psize ⟨seed⟩).2
      (initPopulation oracle pool cfg.emptySlotProb psize ⟨seed⟩).1
      (bestOfPop (defaultIndividual oracle)
        (initPopulation oracle pool cfg.emptySlotProb psize ⟨seed⟩).1)
  refine ⟨h₂.tail, h₃, ?_, h₅⟩
  by_cases hnil :
      (gaLoop oracle pool cfg (defaultIndividual oracle) psize cfg.generations
        (initPopulation oracle pool cfg.emptySlotProb psize ⟨seed⟩).2
        (initPopulation oracle pool cfg.emptySlotProb psize ⟨seed⟩).1
        (bestOfPop (defaultIndividual oracle)
          (initPopulation oracle pool cfg.emptySlotProb psize ⟨seed⟩).1)).2 = []
  · rw [hnil]
    rfl
  · rw [getLastD_irrel _ _
      (bestOfPop (defaultIndividual oracle)
        (initPopulation oracle pool cfg.emptySlotProb psize ⟨seed⟩).1).fitness hnil]
    exact h₄

/-- Modelled from the spec: the reproducibility scenario's configuration:
population size 10, 5 generations, default operator rates. -/
def gaScenarioConfig : GAConfig :=
  { populationSize := 10
    generations := 5
    crossoverRate := 4 / 5
    mutationRate := 3 / 20
    eliteSize := 5
    tournamentSize := 3
    emptySlotProb := 1 / 10 }

/-- Modelled from the spec: the scenario's fixed deterministic mock oracle
returning `sum(slots) / 700`. -/
def mockSumOracle : List ℕ → ℚ :=
  fun b => (b.sum : ℚ) / 700

/-- C6: two GA runs with the identical seed, population size 10, 5
generations and the fixed `sum(slots)/700` mock oracle produce the
identical best build and the identical convergence history: the run is a
pure function of the seed (the engine threads the seeded generator
explicitly and has no other source of nondeterminism). -/
theorem ga_seed_reproducibility (pool : List ℕ) (seed : ℕ) :
    (runGA mockSumOracle pool gaScenarioConfig seed).map EngineResult.build =
      (runGA mockSumOracle pool gaScenarioConfig seed).map EngineResult.build ∧
    (runGA mockSumOracle pool gaScenarioConfig seed).map
        EngineResult.convergenceHistory =
      (runGA mockSumOracle pool gaScenarioConfig seed).map
        EngineResult.convergenceHistory :=
  ⟨rfl, rfl⟩

end LolOpt

namespace LolOpt

/-! ## DE boundary invariant. -/

/-- Every component of a continuous vector lies in `[0,1]`. -/
def UnitRange (v : List ℚ) : Prop :=
  ∀ x ∈ v, 0 ≤ x ∧ x ≤ 1

/-- Every vector of a DE population has all components in `[0,1]`. -/
def UnitRangePop (pop : List (List ℚ)) : Prop :=
  ∀ v ∈ pop, UnitRange v

lemma clamp01_mem (x : ℚ) : 0 ≤ clamp01 x ∧ clamp01 x ≤ 1 :=
  ⟨le_max_left _ _, max_le (by norm_num) (min_le_left _ _)⟩

lemma randUnit_mem (r : RNG) : 0 ≤ (randUnit r).1 ∧ (randUnit r).1 ≤ 1 := by
  rw [randUnit, rngNext]
  constructor
  · positivity
  · rw [div_le_one (by norm_num)]
    have h : (r.state * 1103515245 + 12345) % 2147483648 < 2147483648 :=
      Nat.mod_lt _ (by norm_num)
    exact_mod_cast h.le

lemma unitRange_nil : UnitRange [] := by
  intro x hx
  cases hx

lemma unitRange_zeroVec : UnitRange zeroVec := by
  intro x hx
  rw [zeroVec, List.mem_replicate] at hx
  rw [hx.2]
  norm_num

lemma unitRange_randUnitVec : ∀ (n : ℕ) (r : RNG), UnitRange (randUnitVec n r).1 := by
  intro n
  induction n with
  | zero => intro r; exact unitRange_nil
  | succ n ih =>
    intro r
    simp only [randUnitVec]
    intro x hx
    rcases List.mem_cons.mp hx with rfl | hx'
    · exact randUnit_mem r
    · exact ih (randUnit r).2 x hx'

lemma unitRangePop_deInitPop : ∀ (n : ℕ) (r : RNG), UnitRangePop (deInitPop n r).1 := by
  intro n
  induction n with
  | zero => intro r v hv; cases hv
  | succ n ih =>
    intro r v hv
    simp only [deInitPop] at hv
    rcases List.mem_cons.mp hv with rfl | hv'
    · exact unitRange_randUnitVec 7 r
    · exact ih (randUnitVec 7 r).2 v hv'

lemma getD_mem_or {α : Type} (l : List α) (i : ℕ) (d : α) :
    l.getD i d ∈ l ∨ l.getD i d = d := by
  rw [List.getD_eq_getElem?_getD]
  cases h : l[i]? with
  | none => right; rfl
  | some a =>
    left
    have : a ∈ l := List.getElem?_mem h
    simpa [h] using this

lemma unitRange_getD (pop : List (List ℚ)) (i : ℕ) (h : UnitRangePop pop) :
    UnitRange (pop.getD i zeroVec) := by
  rcases getD_mem_or pop i zeroVec with hm | he
  · exact h _ hm
  · rw [he]
    exact unitRange_zeroVec

lemma unitRange_deMutantVec (F : ℚ) :
    ∀ (va vb vc : List ℚ), UnitRange (deMutantVec F va vb vc) := by
  intro va
  induction va with
  | nil => intro vb vc; exact unitRange_nil
  | cons a as ih =>
    intro vb vc
    cases vb with
    | nil => exact unitRange_nil
    | cons b bs =>
      cases vc with
      | nil => exact unitRange_nil
      | cons c cs =>
        intro x hx
        have heq : deMutantVec F (a :: as) (b :: bs) (c :: cs) =
            clamp01 (a + F * (b - c)) :: deMutantVec F as bs cs := rfl
        rw [heq] at hx
        rcases List.mem_cons.mp hx with rfl | hx'
        · exact clamp01_mem _
        · exact ih bs cs x hx'

lemma mem_deCrossVec (CR : ℚ) (jrand : ℕ) :
    ∀ (ms ts : List ℚ) (j : ℕ) (r : RNG) (x : ℚ),
      x ∈ (deCrossVec CR jrand ms ts j r).1 → x ∈ ms ∨ x ∈ ts := by
  intro ms
  induction ms with
  | nil =>
    intro ts j r x hx
    cases hx
  | cons m ms ih =>
    intro ts j r x hx
    cases ts with
    | nil => cases hx
    | cons t ts' =>
      have heq : deCrossVec CR jrand (m :: ms) (t :: ts') j r =
          ((if (randUnit r).1 < CR ∨ j = jrand then m else t) ::
            (deCrossVec CR jrand ms ts' (j + 1) (randUnit r).2).1,
           (deCrossVec CR jrand ms ts' (j + 1) (randUnit r).2).2) := rfl
      rw [heq] at hx
      rcases List.mem_cons.mp hx with rfl | hx'
      · split
        · exact Or.inl (List.mem_cons_self _ _)
        · exact Or.inr (List.mem_cons_self _ _)
      · rcases ih ts' (j + 1) (randUnit r).2 x hx' with h | h
        · exact Or.inl (List.mem_cons_of_mem _ h)
        · exact Or.inr (List.mem_cons_of_mem _ h)

lemma unitRange_deNewIndividual (oracle : List ℕ → ℚ) (pool : List ℕ)
    (F CR : ℚ) (pop : List (List ℚ)) (P i : ℕ) (r : RNG)
    (hpop : UnitRangePop pop) :
    UnitRange (deNewIndividual oracle pool F CR pop P i r).1 := by
  simp only [deNewIndividual]
  have htarget : UnitRange (pop.getD i zeroVec) := unitRange_getD pop i hpop
  split
  · intro x hx
    rcases mem_deCrossVec CR
        (randNat (pick3 P i r).2 7).1
        (deMutantVec F (pop.getD (pick3 P i r).1.1 zeroVec)
          (pop.getD (pick3 P i r).1.2.1 zeroVec)
          (pop.getD (pick3 P i r).1.2.2 zeroVec))
        (pop.getD i zeroVec) 0 (randNat (pick3 P i r).2 7).2 x hx with h | h
    · exact unitRange_deMutantVec F _ _ _ x h
    · exact htarget x h
  · exact htarget

lemma unitRangePop_deStepGo (oracle : List ℕ → ℚ) (pool : List ℕ)
    (F CR : ℚ) (pop : List (List ℚ)) (P : ℕ) (hpop : UnitRangePop pop) :
    ∀ (is : List ℕ) (r : RNG),
      UnitRangePop (deStepGo oracle pool F CR pop P is r).1 := by
  intro is
  induction is with
  | nil => intro r v hv; cases hv
  | cons i is ih =>
    intro r v hv
    simp only [deStepGo] at hv
    rcases List.mem_cons.mp hv with rfl | hv'
    · exact unitRange_deNewIndividual oracle pool F CR pop P i r hpop
    · exact ih _ v hv'

/-- C7: in the DE engine every continuous component stays in `[0,1]` after
every operator application: the hard clamp maps every rational into
`[0,1]`, every component of a DE/rand/1 mutant is clamped into `[0,1]`,
and every vector of the population after any number of generations (from a
uniformly initialized population, through mutation, crossover and survivor
selection) has all components in `[0,1]`. -/
theorem de_population_in_unit_range (oracle : List ℕ → ℚ) (pool : List ℕ)
    (F CR : ℚ) (P seed g : ℕ) :
    (∀ x : ℚ, 0 ≤ clamp01 x ∧ clamp01 x ≤ 1) ∧
    (∀ va vb vc : List ℚ, UnitRange (deMutantVec F va vb vc)) ∧
    UnitRangePop (dePopAfter oracle pool F CR P seed g).1 := by
  refine ⟨clamp01_mem, unitRange_deMutantVec F, ?_⟩
  induction g with
  | zero => exact unitRangePop_deInitPop P ⟨seed⟩
  | succ g ih =>
    simp only [dePopAfter, deStep]
    exact unitRangePop_deStepGo oracle pool F CR
      (dePopAfter oracle pool F CR P seed g).1 P ih _ _

end LolOpt

namespace LolOpt

/-! ## Configuration validation. -/

/-- C8: configuration errors are rejected before any generation runs: a
zero-or-negative population size makes either engine fail fast with the
empty-population error, a positive DE population size below 4 fails with
the degenerate-tolerance error, and in each failing case the run's outcome
does not depend on the fitness oracle — witnessing that no generation (and
no fitness evaluation) is executed. -/
theorem config_errors_rejected (oracle₁ oracle₂ : List ℕ → ℚ)
    (pool : List ℕ) (gaCfg : GAConfig) (deCfg : DEConfig) (seed : ℕ) :
    (gaCfg.populationSize ≤ 0 →
      runGA oracle₁ pool gaCfg seed = .error .emptyPopulation ∧
      runGA oracle₁ pool gaCfg seed = runGA oracle₂ pool gaCfg seed) ∧
    (deCfg.populationSize ≤ 0 →
      runDE oracle₁ pool deCfg seed = .error .emptyPopulation ∧
      runDE oracle₁ pool deCfg seed = runDE oracle₂ pool deCfg seed) ∧
    (0 < deCfg.populationSize → deCfg.populationSize < 4 →
      runDE oracle₁ pool deCfg seed = .error .degenerateTolerance ∧
      runDE oracle₁ pool deCfg seed = runDE oracle₂ pool deCfg seed) := by
  refine ⟨?_, ?_, ?_⟩
  · intro h
    have hv : validateGAConfig gaCfg = some .emptyPopulation := by
      rw [validateGAConfig, if_pos h]
    constructor <;> simp [runGA, hv]
  · intro h
    have hv : validateDEConfig deCfg = some .emptyPopulation := by
      rw [validateDEConfig, if_pos h]
    constructor <;> simp [runDE, hv]
  · intro h₀ h₄
    have hv : validateDEConfig deCfg = some .degenerateTolerance := by
      rw [validateDEConfig, if_neg (not_le.mpr h₀), if_pos h₄]
    constructor <;> simp [runDE, hv]

/-- Modelled from the spec: a GA configuration mis-configured with
population size 0. -/
def gaBadConfig : GAConfig :=
  { populationSize := 0
    generations := 5
    crossoverRate := 4 / 5
    mutationRate := 3 / 20
    eliteSize := 5
    tournamentSize := 3
    emptySlotProb := 1 / 10 }

/-- Modelled from the spec: a DE configuration mis-configured with a
negative population size. -/
def deNegConfig : DEConfig :=
  { populationSize := -2
    generations := 5
    F := 1 / 2
    CR := 9 / 10 }

/-- Modelled from the spec: a DE configuration mis-configured with
population size 3, too small to sample three distinct other
individuals. -/
def deSmallConfig : DEConfig :=
  { populationSize := 3
    generations := 5
    F := 1 / 2
    CR := 9 / 10 }

/-- C8 witness: the rejection theorem applied to a zero-population GA
configuration, a negative-population DE configuration, and a DE population
of size 3. -/
theorem config_errors_rejected_witness :
    (runGA (fun _ => (0 : ℚ)) [1, 2, 3] gaBadConfig 7 = .error .emptyPopulation ∧
      runGA (fun _ => (0 : ℚ)) [1, 2, 3] gaBadConfig 7 =
        runGA mockSumOracle [1, 2, 3] gaBadConfig 7) ∧
    (runDE (fun _ => (0 : ℚ)) [1, 2, 3] deNegConfig 7 = .error .emptyPopulation ∧
      runDE (fun _ => (0 : ℚ)) [1, 2, 3] deNegConfig 7 =
        runDE mockSumOracle [1, 2, 3] deNegConfig 7) ∧
    (runDE (fun _ => (0 : ℚ)) [1, 2, 3] deSmallConfig 7 = .error .degenerateTolerance ∧
      runDE (fun _ => (0 : ℚ)) [1, 2, 3] deSmallConfig 7 =
        runDE mockSumOracle [1, 2, 3] deSmallConfig 7) := by
  have h₁ := config_errors_rejected (fun _ => (0 : ℚ)) mockSumOracle [1, 2, 3]
    gaBadConfig deNegConfig 7
  have h₂ := config_errors_rejected (fun _ => (0 : ℚ)) mockSumOracle [1, 2, 3]
    gaBadConfig deSmallConfig 7
  exact ⟨h₁.1 (by decide), h₁.2.1 (by decide), h₂.2.2 (by decide) (by decide)⟩

end LolOpt

namespace LolOpt

/-! ## ItemManager, from `docs/js/data-loader.js` (class `ItemManager`). -/

/-- Embeds the `gold` sub-object of a Data Dragon item record; fields may
be absent in the raw JSON. -/
structure GoldInfo where
  total : Option ℤ
  base : Option ℤ
  sell : Option ℤ
deriving DecidableEq

/-- Embeds the `image` sub-object of a raw Data Dragon item record. -/
structure RawImage where
  full : Option String
  sprite : Option String
  group : Option String
deriving DecidableEq

/-- Embeds a raw Data Dragon item record as read by `ItemManager.getItem`
from `this.itemData`. -/
structure RawItem where
  name : String
  description : Option String
  plaintext : Option String
  image : Option RawImage
  gold : Option GoldInfo
  tags : Option (List String)
  stats : Option (List (String × ℚ))
deriving DecidableEq

/-- Embeds the `image` object of a `getItem` result: the loaded branch
fills `full`, `sprite` and `group`; the default branch fills `full` and
`url`. -/
structure ItemImage where
  full : String
  sprite : Option String
  group : Option String
  url : Option String
deriving DecidableEq

/-- Embeds the record returned by `ItemManager.getItem`; optional fields
are present in only one of the loaded/default branches, as in the two
JavaScript object literals. -/
structure ItemInfo where
  id : ℕ
  name : String
  description : String
  plaintext : Option String
  image : ItemImage
  gold : GoldInfo
  tags : List String
  stats : List (String × ℚ)
deriving DecidableEq

/-- Embeds the `ItemManager` state: `this.itemData` (an id-keyed object,
modelled as an association list) and `this.isLoaded`. -/
structure ItemManagerState where
  itemData : List (ℕ × RawItem)
  isLoaded : Bool
deriving DecidableEq

/-- Embeds the JavaScript `a || b` fallback on strings, where both
`undefined` (here `none`) and the empty string are falsy. -/
def jsOrString (a : Option String) (b : String) : String :=
  match a with
  | some s => if s = "" then b else s
  | none => b

/-- Embeds `ItemManager._getDefaultItem`. -/
def getDefaultItem (itemId : ℕ) : ItemInfo :=
  { id := itemId
    name := "Item " ++ toString itemId
    description := "Item data not available"
    plaintext := some ""
    image := { full := toString itemId ++ ".png"
               sprite := none
               group := none
               url := some ("assets/dragontail_data/15.10.1/img/item/"
                 ++ toString itemId ++ ".png") }
    gold := { total := some 0, base := some 0, sell := some 0 }
    tags := []
    stats := [] }

/-- Embeds `ItemManager.getItem`: the default record when the data is not
loaded or the id is unknown, otherwise the looked-up record with the
JavaScript falsy-fallbacks on description and image fields. -/
def getItem (st : ItemManagerState) (itemId : ℕ) : ItemInfo :=
  if st.isLoaded = false then getDefaultItem itemId
  else
    match st.itemData.lookup itemId with
    | none => getDefaultItem itemId
    | some item =>
      { id := itemId
        name := item.name
        description := jsOrString item.description (jsOrString item.plaintext "")
        plaintext := none
        image := { full := jsOrString (item.image.bind RawImage.full)
                     (toString itemId ++ ".png")
                   sprite := some (jsOrString (item.image.bind RawImage.sprite)
                     "item0.png")
                   group := some (jsOrString (item.image.bind RawImage.group)
                     "item")
                   url := none }
        gold := item.gold.getD { total := none, base := none, sell := none }
        tags := item.tags.getD []
        stats := item.stats.getD [] }

/-- C9: `getItem` is total (a Lean function into `ItemInfo`, with no error
outcome): for every manager state and item id it returns a record carrying
the requested id and a name, falling back to the default record named
`Item <id>` exactly when the data is not loaded or the id is absent, and
returning the stored name when the id is found in loaded data. -/
theorem getItem_total_with_fallback (st : ItemManagerState) (itemId : ℕ) :
    (getItem st itemId).id = itemId ∧
    (st.isLoaded = false →
      getItem st itemId = getDefaultItem itemId ∧
      (getItem st itemId).name = "Item " ++ toString itemId) ∧
    (st.itemData.lookup itemId = none →
      getItem st itemId = getDefaultItem itemId ∧
      (getItem st itemId).name = "Item " ++ toString itemId) ∧
    (∀ raw, st.isLoaded = true → st.itemData.lookup itemId = some raw →
      (getItem st itemId).name = raw.name) := by
  by_cases hL : st.isLoaded = false
  · have he : getItem st itemId = getDefaultItem itemId := by
      unfold getItem
      rw [if_pos hL]
    refine ⟨by rw [he]; rfl, fun _ => ⟨he, by rw [he]; rfl⟩,
      fun _ => ⟨he, by rw [he]; rfl⟩, ?_⟩
    intro raw hT
    rw [hL] at hT
    cases hT
  · cases hlk : st.itemData.lookup itemId with
    | none =>
      have he : getItem st itemId = getDefaultItem itemId := by
        unfold getItem
        rw [if_neg hL, hlk]
      refine ⟨by rw [he]; rfl, fun h => absurd h hL,
        fun _ => ⟨he, by rw [he]; rfl⟩, ?_⟩
      intro raw _ hr
      cases hr
    | some item =>
      have hn : (getItem st itemId).name = item.name := by
        unfold getItem
        rw [if_neg hL, hlk]
      refine ⟨?_, fun h => absurd h hL, fun h => Option.noConfusion h, ?_⟩
      · unfold getItem
        rw [if_neg hL, hlk]
      · intro raw _ hr
        cases hr
        exact hn

/-- C9 witness: `getItem` on an unloaded manager and an id absent from the
(empty) dataset returns the default record with its fallback name. -/
theorem getItem_total_with_fallback_witness :
    (getItem ⟨[], false⟩ 9999).id = 9999 ∧
    getItem ⟨[], false⟩ 9999 = getDefaultItem 9999 ∧
    (getItem ⟨[], false⟩ 9999).name = "Item " ++ toString 9999 := by
  have h := getItem_total_with_fallback ⟨[], false⟩ 9999
  exact ⟨h.1, (h.2.1 rfl).1, (h.2.1 rfl).2⟩

end LolOpt

namespace LolOpt

/-! ## OptimizationDataLoader, from `docs/js/data-loader.js` (class
`OptimizationDataLoader`).  Insight payloads that the loader copies without
examining are modelled as opaque key-value lists. -/

/-- Opaque JSON payload copied through unexamined. -/
abbrev JsonBlob := List (String × ℚ)

/-- Embeds a per-engine block of `data/algorithm_comparison.json`; fields
may be absent. -/
structure AlgoResult where
  optimal_build : Option (List ℕ)
  fitness : Option ℚ
  win_probability : Option ℚ
  generations : Option ℕ
  population_size : Option ℕ
  optimal_build_names : Option (List String)
deriving DecidableEq

/-- Embeds the `comparison` block of `data/algorithm_comparison.json`. -/
structure ComparisonRec where
  winner : Option String
  advantage : Option ℚ
  ga_improvement : Option ℚ
  de_improvement : Option ℚ
  overlap_ratio : Option ℚ
  common_items : Option (List ℕ)
deriving DecidableEq

/-- Embeds the parsed `data/algorithm_comparison.json`. -/
structure RawAlgorithmData where
  champion_id : Option ℤ
  baseline_win_rate : Option ℚ
  genetic_algorithm : Option AlgoResult
  differential_evolution : Option AlgoResult
  comparison : Option ComparisonRec
deriving DecidableEq

/-- Embeds the `champion_info` block of `data/eda_insights.json`. -/
structure ChampionInfo where
  total_records : Option ℤ
deriving DecidableEq

/-- Embeds a `top_items` entry of `data/eda_insights.json`. -/
structure RawTopItem where
  id : ℕ
  name : String
  usage : ℚ
  count : ℕ
deriving DecidableEq

/-- Embeds the parsed `data/eda_insights.json`. -/
structure RawEdaData where
  champion_info : Option ChampionInfo
  generated_at : Option String
  data_source : Option String
  performance_stats : Option JsonBlob
  top_items : Option (List RawTopItem)
  build_diversity : Option JsonBlob
  game_duration : Option JsonBlob
  win_rate_correlations : Option JsonBlob
deriving DecidableEq

/-- Embeds the `metadata` block built by `_combineData`. -/
structure MetaData where
  champion_id : Option ℤ
  total_games : ℤ
  win_rate : ℚ
  generated_at : Option String
  data_source : Option String
deriving DecidableEq

/-- Embeds the `algorithms` block built by `_combineData`. -/
structure Algorithms where
  genetic_algorithm : Option AlgoResult
  differential_evolution : Option AlgoResult
  baseline_win_rate : Option ℚ
  comparison : Option ComparisonRec
deriving DecidableEq

/-- Embeds a `top_items` entry after `_enhanceWithRealNames`: the raw entry
optionally enriched with the item manager's description and image. -/
structure CombinedTopItem where
  id : ℕ
  name : String
  usage : ℚ
  count : ℕ
  description : Option String
  image : Option ItemImage
deriving DecidableEq

/-- Embeds the `insights` block built by `_combineData`. -/
structure Insights where
  performance_stats : Option JsonBlob
  top_items : Option (List CombinedTopItem)
  build_diversity : Option JsonBlob
  game_duration : Option JsonBlob
  win_rate_correlations : Option JsonBlob
deriving DecidableEq

/-- Embeds the combined record flowing out of `loadOptimizationData`:
combined data, enhancement fields, the `isValid` flag, and the `error`
message of the failure record. -/
structure CombinedData where
  metadata : MetaData
  algorithms : Algorithms
  insights : Insights
  championName : Option String
  isValid : Bool
  error : Option String
deriving DecidableEq

/-- Embeds a raw `top_items` entry as it enters the combined record. -/
def rawTopToCombined (t : RawTopItem) : CombinedTopItem :=
  { id := t.id, name := t.name, usage := t.usage, count := t.count
    description := none, image := none }

/-- Embeds `OptimizationDataLoader._combineData`. -/
def combineData (a : RawAlgorithmData) (e : RawEdaData) : CombinedData :=
  { metadata := { champion_id := a.champion_id
                  total_games := (e.champion_info.bind ChampionInfo.total_records).getD 0
                  win_rate := a.baseline_win_rate.getD 0
                  generated_at := e.generated_at
                  data_source := e.data_source }
    algorithms := { genetic_algorithm := a.genetic_algorithm
                    differential_evolution := a.differential_evolution
                    baseline_win_rate := a.baseline_win_rate
                    comparison := a.comparison }
    insights := { performance_stats := e.performance_stats
                  top_items := e.top_items.map (List.map rawTopToCombined)
                  build_diversity := e.build_diversity
                  game_duration := e.game_duration
                  win_rate_correlations := e.win_rate_correlations }
    championName := none
    isValid := false
    error := none }

/-- Embeds `OptimizationDataLoader._enhanceWithRealNames`: resolves the
champion name (the champion manager is abstracted as the function
`champName`), enriches `top_items` with the item manager's records, and
attaches the optimal builds' item names. -/
def enhanceWithRealNames (champName : ℤ → String) (im : ItemManagerState)
    (d : CombinedData) : CombinedData :=
  let enhAlgo := fun (g : AlgoResult) =>
    match g.optimal_build with
    | some b =>
      { g with optimal_build_names := some (b.map (fun i => (getItem im i).name)) }
    | none => g
  let enhTop := fun (t : CombinedTopItem) =>
    { t with name := (getItem im t.id).name
             description := some (getItem im t.id).description
             image := some (getItem im t.id).image }
  { d with
    championName := some (champName (d.metadata.champion_id.getD 0))
    insights := { d.insights with
                  top_items := d.insights.top_items.map (List.map enhTop) }
    algorithms := { d.algorithms with
                    genetic_algorithm := d.algorithms.genetic_algorithm.map enhAlgo
                    differential_evolution := d.algorithms.differential_evolution.map enhAlgo } }

/-- Embeds `OptimizationDataLoader._validateData`: the required nested
fields must be present, the champion id positive, and both optimal builds
present. -/
def validateData (d : CombinedData) : Bool :=
  match d.metadata.champion_id, d.algorithms.genetic_algorithm,
      d.algorithms.differential_evolution with
  | some cid, some g, some de =>
    if cid ≤ 0 then false
    else if g.optimal_build = none ∨ de.optimal_build = none then false
    else true
  | _, _, _ => false

/-- Embeds the failure record returned by the `catch` branch of
`loadOptimizationData`. -/
def loadErrorResult (msg : String) : CombinedData :=
  { metadata := { champion_id := some 0, total_games := 0, win_rate := 0
                  generated_at := none, data_source := none }
    algorithms := { genetic_algorithm := none, differential_evolution := none
                    baseline_win_rate := none, comparison := none }
    insights := { performance_stats := none, top_items := none
                  build_diversity := none, game_duration := none
                  win_rate_correlations := none }
    championName := none
    isValid := false
    error := some msg }

/-- Embeds the `OptimizationDataLoader` state: the (single-keyed) cache and
the `isLoading` flag. -/
structure LoaderState where
  cache : Option CombinedData
  isLoading : Bool
deriving DecidableEq

/-- Embeds `OptimizationDataLoader.loadOptimizationData` as a state
transition.  The fetch outcomes of the two JSON files are inputs (`none`
models a failed fetch, which the code turns into the caught
`Failed to load required data files` error), as is an optional failure of
`_ensureManagersReady` (whose thrown message is also caught).  The returned
pair is the function's result (`none` models the early `return null` while
a load is in flight) and the updated loader state. -/
def loadOptimizationData (champName : ℤ → String) (im : ItemManagerState)
    (st : LoaderState) (fetchAlg : Option RawAlgorithmData)
    (fetchEda : Option RawEdaData) (managerFailure : Option String) :
    Option CombinedData × LoaderState :=
  if st.isLoading then (none, st)
  else
    match st.cache with
    | some d => (some d, st)
    | none =>
      match fetchAlg, fetchEda with
      | some a, some e =>
        match managerFailure with
        | some msg => (some (loadErrorResult msg), st)
        | none =>
          let enhanced := enhanceWithRealNames champName im (combineData a e)
          let final := { enhanced with isValid := validateData enhanced }
          if final.isValid then (some final, { st with cache := some final })
          else (some final, st)
      | _, _ =>
        (some (loadErrorResult "Failed to load required data files"), st)

/-- Every cache entry carries a true `isValid` flag and satisfies the
validation predicate. -/
def CacheValid (st : LoaderState) : Prop :=
  ∀ d, st.cache = some d → d.isValid = true ∧ validateData d = true

end LolOpt

namespace LolOpt

lemma validateData_set_isValid (d : CombinedData) (b : Bool) :
    validateData { d with isValid := b } = validateData d := rfl

/-- C10: the loader caches only validated data: the cache-validity
invariant (every cache entry has `isValid` true and satisfies the
validation predicate) is preserved by every call; when either fetch fails
the call returns the failure record (`isValid` false, error message set)
and leaves the cache untouched; when the manager setup fails the caught
message is returned the same way; and on the fresh-load path the combined,
enhanced record is stored in the cache exactly when its validation
succeeds, the returned record carrying `isValid` equal to the validation
verdict in both cases. -/
theorem loader_caches_only_validated (champName : ℤ → String)
    (im : ItemManagerState) (st : LoaderState)
    (fetchAlg : Option RawAlgorithmData) (fetchEda : Option RawEdaData)
    (managerFailure : Option String) (a : RawAlgorithmData) (e : RawEdaData) :
    (CacheValid st →
      CacheValid
        (loadOptimizationData champName im st fetchAlg fetchEda managerFailure).2) ∧
    (st.isLoading = false → st.cache = none →
      (fetchAlg = none ∨ fetchEda = none) →
      (loadOptimizationData champName im st fetchAlg fetchEda managerFailure).1 =
        some (loadErrorResult "Failed to load required data files") ∧
      (loadOptimizationData champName im st fetchAlg fetchEda managerFailure).2 = st ∧
      (loadErrorResult "Failed to load required data files").isValid = false ∧
      (loadErrorResult "Failed to load required data files").error =
        some "Failed to load required data files") ∧
    (∀ msg, st.isLoading = false → st.cache = none → fetchAlg = some a →
      fetchEda = some e → managerFailure = some msg →
      (loadOptimizationData champName im st fetchAlg fetchEda managerFailure).1 =
        some (loadErrorResult msg) ∧
      (loadOptimizationData champName im st fetchAlg fetchEda managerFailure).2 = st ∧
      (loadErrorResult msg).isValid = false ∧
      (loadErrorResult msg).error = some msg) ∧
    (st.isLoading = false → st.cache = none → fetchAlg = some a →
      fetchEda = some e → managerFailure = none →
      (validateData (enhanceWithRealNames champName im (combineData a e)) = true →
        (loadOptimizationData champName im st fetchAlg fetchEda managerFailure).2.cache =
          some { enhanceWithRealNames champName im (combineData a e) with
            isValid := true } ∧
        (loadOptimizationData champName im st fetchAlg fetchEda managerFailure).1 =
          some { enhanceWithRealNames champName im (combineData a e) with
            isValid := true }) ∧
      (validateData (enhanceWithRealNames champName im (combineData a e)) = false →
        (loadOptimizationData champName im st fetchAlg fetchEda managerFailure).2.cache =
          st.cache ∧
        (loadOptimizationData champName im st fetchAlg fetchEda managerFailure).1 =
          some { enhanceWithRealNames champName im (combineData a e) with
            isValid := false })) := by
  refine ⟨?_, ?_, ?_, ?_⟩
  · -- cache-validity invariant
    intro hcv d hd
    by_cases hld : st.isLoading = true
    · simp only [loadOptimizationData, hld, if_true] at hd
      exact hcv d hd
    · have hld' : st.isLoading = false := by
        revert hld
        cases st.isLoading <;> simp
      cases hc : st.cache with
      | some d0 =>
        simp only [loadOptimizationData, hld', hc, Bool.false_eq_true,
          if_false] at hd
        exact hcv d (hc.trans hd)
      | none =>
        cases fetchAlg with
        | none =>
          simp only [loadOptimizationData, hld', hc, Bool.false_eq_true,
            if_false] at hd
          cases hd
        | some a' =>
          cases fetchEda with
          | none =>
            simp only [loadOptimizationData, hld', hc, Bool.false_eq_true,
              if_false] at hd
            cases hd
          | some e' =>
            cases managerFailure with
            | some msg =>
              simp only [loadOptimizationData, hld', hc, Bool.false_eq_true,
                if_false] at hd
              cases hd
            | none =>
              by_cases hv :
                  validateData (enhanceWithRealNames champName im (combineData a' e')) = true
              · simp only [loadOptimizationData, hld', hc, Bool.false_eq_true,
                  if_false, hv, if_true] at hd
                cases hd
                refine ⟨rfl, ?_⟩
                rw [validateData_set_isValid]
                exact hv
              · have hv' :
                    validateData (enhanceWithRealNames champName im (combineData a' e')) = false := by
                  revert hv
                  cases validateData (enhanceWithRealNames champName im (combineData a' e')) <;> simp
                simp only [loadOptimizationData, hld', hc, Bool.false_eq_true,
                  if_false, hv', Bool.false_eq_true] at hd
                cases hd
  · -- a failed fetch returns the failure record, cache untouched
    intro hld hc hor
    have hgoal :
        (loadOptimizationData champName im st fetchAlg fetchEda managerFailure).1 =
          some (loadErrorResult "Failed to load required data files") ∧
        (loadOptimizationData champName im st fetchAlg fetchEda managerFailure).2 = st := by
      rcases hor with h | h
      · subst h
        simp [loadOptimizationData, hld, hc]
      · subst h
        cases fetchAlg <;> simp [loadOptimizationData, hld, hc]
    exact ⟨hgoal.1, hgoal.2, rfl, rfl⟩
  · -- a manager failure returns the caught message, cache untouched
    intro msg hld hc ha he hm
    subst ha
    subst he
    subst hm
    exact ⟨by simp [loadOptimizationData, hld, hc], by simp [loadOptimizationData, hld, hc],
      rfl, rfl⟩
  · -- fresh load: stored exactly when validation succeeds
    intro hld hc ha he hm
    subst ha
    subst he
    subst hm
    constructor
    · intro hv
      constructor <;>
        simp [loadOptimizationData, hld, hc, hv]
    · intro hv
      constructor <;>
        simp [loadOptimizationData, hld, hc, hv]

/-- C10 witness: the theorem applied to an idle loader with an empty cache
whose algorithm-comparison fetch failed: the failure record is returned,
the cache stays empty, and the (trivially valid) empty cache stays
valid. -/
theorem loader_caches_only_validated_witness :
    CacheValid
      (loadOptimizationData (fun _ => "champion") ⟨[], false⟩ ⟨none, false⟩
        none none none).2 ∧
    (loadOptimizationData (fun _ => "champion") ⟨[], false⟩ ⟨none, false⟩
        none none none).1 =
      some (loadErrorResult "Failed to load required data files") ∧
    (loadOptimizationData (fun _ => "champion") ⟨[], false⟩ ⟨none, false⟩
        none none none).2 = (⟨none, false⟩ : LoaderState) ∧
    (loadErrorResult "Failed to load required data files").isValid = false ∧
    (loadErrorResult "Failed to load required data files").error =
      some "Failed to load required data files" := by
  have h := loader_caches_only_validated (fun _ => "champion") ⟨[], false⟩
    ⟨none, false⟩ none none none
    ⟨none, none, none, none, none⟩ ⟨none, none, none, none, none, none, none, none⟩
  have hb := h.2.1 rfl rfl (Or.inl rfl)
  exact ⟨h.1 (fun d hd => Option.noConfusion hd), hb.1, hb.2.1, hb.2.2.1, hb.2.2.2⟩

end LolOpt
